import Mathlib

/-!
Verification of nf-schema-builder's parameter validator, dialect resolver and
editor synchronization service, via a shallow embedding of the Python source
(src/nf_schema_builder/schema.py, validation.py, config.py, http.py).

JSON-like values are modelled by `JVal`; Python dicts by ordered association
lists (first key wins on lookup, updates keep position, fresh keys append,
mirroring insertion-ordered Python dicts).  Python runtime values flowing
through the validator are modelled by `PyVal`.
-/

/-- A JSON-like value, as held in a loaded schema document. -/
inductive JVal where
  | jstr (s : String)
  | jbool (b : Bool)
  | jint (n : Int)
  | jobj (fields : List (String × JVal))
  | jarr (items : List JVal)
deriving Repr

/-- A Python dict with `String` keys and `JVal` values, as an ordered association list. -/
abbrev JDict := List (String × JVal)

/-- Python `d.get(k)` / `d[k]` on a dict: first matching key. -/
def dictGet (d : JDict) (k : String) : Option JVal :=
  (d.find? (fun p => p.1 == k)).map (fun p => p.2)

/-- Python `d[k] = v`: overwrite in place (keeping position) or append a fresh key. -/
def dictSet (d : JDict) (k : String) (v : JVal) : JDict :=
  if d.any (fun p => p.1 == k) then
    d.map (fun p => if p.1 == k then (k, v) else p)
  else d ++ [(k, v)]

/-- Python `d.get(k, dflt)`. -/
def jGetD (d : JDict) (k : String) (dflt : JVal) : JVal :=
  (dictGet d k).getD dflt

/-- View a `JVal` as a dict; non-dict values give the empty dict (used where the
source reads `schema.get(key, {})` and then only performs dict operations). -/
def jAsObj : JVal → JDict
  | .jobj f => f
  | _ => []

/-- View a `JVal` as a list; non-list values give the empty list. -/
def jAsArr : JVal → List JVal
  | .jarr l => l
  | _ => []

/-- Python `schema.get(k, {})` followed by use as a dict. -/
def objOrEmpty (d : JDict) (k : String) : JDict :=
  jAsObj (jGetD d k (.jobj []))

/-- Python `==` between an arbitrary value and a string literal: only equal
strings compare equal; values of other types compare unequal. -/
def jvalEqStr : JVal → String → Bool
  | .jstr s, t => s == t
  | _, _ => false

/-- Python truthiness of a `JVal` (`if x:`): empty containers, empty strings,
zero and `False` are falsy. -/
def truthy : JVal → Bool
  | .jstr s => !(s == "")
  | .jbool b => b
  | .jint n => !(n == 0)
  | .jobj f => !f.isEmpty
  | .jarr l => !l.isEmpty

/-- The apostrophe character (codepoint 39), used to build Python string
literals that contain quotes. -/
def apoc : Char := Char.ofNat 39

/-- The string consisting of one apostrophe. -/
def apos : String := String.singleton apoc

/-- The string consisting of one backtick, used in the validator's messages. -/
def bq : String := "`"

/-- Python `str.split(sep)` for a single-character separator, on char lists. -/
def pySplitAux (sep : Char) : List Char → List Char → List String
  | acc, [] => [String.mk acc.reverse]
  | acc, c :: rest =>
      if c == sep then String.mk acc.reverse :: pySplitAux sep [] rest
      else pySplitAux sep (c :: acc) rest

/-- Python `s.split(sep)` for a single-character separator. -/
def pySplit (s : String) (sep : Char) : List String :=
  pySplitAux sep [] s.data

/-- Python substring containment `pat in s` on char lists. -/
def subOf (pat : List Char) : List Char → Bool
  | [] => pat.isEmpty
  | c :: rest => pat.isPrefixOf (c :: rest) || subOf pat rest

/-- Python `pat in s` for strings (substring containment). -/
def pyIn (pat s : String) : Bool := subOf pat.data s.data

/-- Python `s.startswith(pat)`. -/
def pyStartswith (s pat : String) : Bool := pat.data.isPrefixOf s.data

/-- Python `s.lower()` (ASCII case folding; the source only compares ASCII). -/
def strLower (s : String) : String := String.mk (s.data.map Char.toLower)

/-- Python `ref.split("/")[-1]`: the final path segment of a reference string. -/
def lastSegment (s : String) : String := (pySplit s '/').getLastD s

/-- A Python runtime value flowing through the validator: the strings read from
the workflow configuration and the booleans/ints/floats produced by
`convert_param_value`.  Floats are carried as their source text; the claims
never inspect a float's printed form, so IEEE formatting is not modelled. -/
inductive PyVal where
  | pstr (s : String)
  | pbool (b : Bool)
  | pint (n : Int)
  | pfloat (s : String)
deriving DecidableEq, Repr

/-- Python `str(v)` on the modelled runtime values (`str(True) = "True"`). -/
def pyStr : PyVal → String
  | .pstr s => s
  | .pbool true => "True"
  | .pbool false => "False"
  | .pint n => toString n
  | .pfloat s => s

/-- Python `v == lit` for a string literal `lit`: non-strings never equal a string. -/
def pyEqStr : PyVal → String → Bool
  | .pstr s, t => s == t
  | _, _ => false

/-- Python whitespace characters stripped by no-argument `str.strip()`. -/
def wsChars : List Char :=
  [' ', Char.ofNat 9, Char.ofNat 10, Char.ofNat 13, Char.ofNat 11, Char.ofNat 12]

/-- Strip the given characters from both ends of a char list (Python `strip(chars)`). -/
def stripCharsL (cs : List Char) (l : List Char) : List Char :=
  ((l.dropWhile (fun c => cs.contains c)).reverse.dropWhile (fun c => cs.contains c)).reverse

/-- Python `s.strip(chars)`. -/
def stripChars (s : String) (cs : List Char) : String := String.mk (stripCharsL cs s.data)

/-- Python no-argument `s.strip()` (whitespace). -/
def stripWs (s : String) : String := String.mk (stripCharsL wsChars s.data)

/-- Nonempty and all ASCII digits. -/
def digitsNonempty (l : List Char) : Bool := !l.isEmpty && l.all (fun c => c.isDigit)

/-- Drop one leading sign character, as Python's numeric parsers allow. -/
def afterSign : List Char → List Char
  | [] => []
  | c :: rest => if c == '+' || c == '-' then rest else c :: rest

/-- Whether Python `int(s)` succeeds on a string: optional surrounding
whitespace, optional sign, then digits (underscore grouping not modelled; the
claims never exercise it). -/
def pyIntStrOk (s : String) : Bool := digitsNonempty (afterSign (stripCharsL wsChars s.data))

/-- Numeric value of a digit list. -/
def natOfDigits (l : List Char) : Nat := l.foldl (fun acc c => acc * 10 + (c.toNat - 48)) 0

/-- The integer Python `int(s)` returns when `pyIntStrOk s` holds. -/
def pyIntParse (s : String) : Int :=
  match stripCharsL wsChars s.data with
  | [] => 0
  | c :: rest =>
      if c == '-' then -(natOfDigits rest : Int)
      else if c == '+' then (natOfDigits rest : Int)
      else (natOfDigits (c :: rest) : Int)

/-- Exponent part of a float literal: empty, or `e`/`E` with a signed digit run. -/
def expOk : List Char → Bool
  | [] => true
  | c :: rest => (c == 'e' || c == 'E') && digitsNonempty (afterSign rest)

/-- Mantissa (plus optional exponent) of a Python float literal. -/
def mantissaOk (l : List Char) : Bool :=
  let d1 := l.takeWhile (fun c => c.isDigit)
  let r1 := l.dropWhile (fun c => c.isDigit)
  match r1 with
  | '.' :: r2 =>
      let d2 := r2.takeWhile (fun c => c.isDigit)
      let r3 := r2.dropWhile (fun c => c.isDigit)
      (!d1.isEmpty || !d2.isEmpty) && expOk r3
  | _ => !d1.isEmpty && expOk r1

/-- Whether Python `float(s)` succeeds on a string: optional whitespace and
sign, then a decimal literal, or `inf`/`infinity`/`nan` (any case). -/
def pyFloatStrOk (s : String) : Bool :=
  let t := afterSign (stripCharsL wsChars s.data)
  mantissaOk t ||
    (let low := t.map Char.toLower
     low == "inf".data || low == "infinity".data || low == "nan".data)

/-- Whether Python `int(v)` succeeds: always on bools/ints/floats (the
`nan`/`inf` float exceptions are never reached by the modelled call sites),
and per `pyIntStrOk` on strings. -/
def pyIntOk : PyVal → Bool
  | .pstr s => pyIntStrOk s
  | _ => true

/-- Whether Python `float(v)` succeeds. -/
def pyFloatOk : PyVal → Bool
  | .pstr s => pyFloatStrOk s
  | _ => true

/-!
Section: SchemaValidator (src/nf_schema_builder/schema.py, lines 114-214)

`find_parameter` scans top-level `properties`, then each `allOf` section's
`$ref`-referenced entry of the definitions block keyed by `defs_key`.
The `.copy()` at its two return sites is the identity in this pure model;
its aliasing behaviour is modelled separately by the heap model below.
-/

/-- The `allOf` scan of `SchemaValidator.find_parameter` (schema.py lines
137-145): for each section carrying a `$ref`, look the final path segment up
in the definitions block and search that definition's `properties`. -/
def findInAllOf (schema : JDict) (defsKey name : String) : List JVal → Option JDict
  | [] => none
  | sec :: rest =>
      let secd := jAsObj sec
      match dictGet secd "$ref" with
      | some (.jstr r) =>
          let defName := lastSegment r
          let defs := objOrEmpty schema defsKey
          match dictGet defs defName with
          | some (.jobj defn) =>
              let defProps := objOrEmpty defn "properties"
              match dictGet defProps name with
              | some (.jobj d) => some d
              | _ => findInAllOf schema defsKey name rest
          | _ => findInAllOf schema defsKey name rest
      | _ => findInAllOf schema defsKey name rest

/-- `SchemaValidator.find_parameter` (schema.py lines 129-147): top-level
`properties` first, then the referenced definitions blocks in document order. -/
def find_parameter (schema : JDict) (defsKey name : String) : Option JDict :=
  match dictGet (objOrEmpty schema "properties") name with
  | some (.jobj d) => some d
  | _ => findInAllOf schema defsKey name (jAsArr (jGetD schema "allOf" (.jarr [])))

/-- The body of `SchemaValidator.validate_parameter` after a definition has
been found and seen to be non-empty (schema.py lines 155-191).  `rm` is the
oracle for `re.match(pattern, s)` truthiness (the `re` module is an external
collaborator).  A present but non-string `pattern` value would make Python's
`re.match` raise; that crash is outside the modelled domain and the model
returns valid there. -/
def validateFound (rm : String → String → Bool) (sp : JDict) (v : PyVal) : Bool × String :=
  if truthy (jGetD sp "hidden" (.jbool false)) then (true, "")
  else if pyEqStr v "null" then (true, "")
  else
    let pt := jGetD sp "type" (.jstr "string")
    if jvalEqStr pt "boolean" then
      if !(strLower (pyStr v) == "true" || strLower (pyStr v) == "false") then
        (false, "Boolean must be true or false, not " ++ bq ++ pyStr v ++ bq)
      else (true, "")
    else if jvalEqStr pt "integer" then
      if pyIntOk v then (true, "")
      else (false, "Not an integer: " ++ bq ++ pyStr v ++ bq)
    else if jvalEqStr pt "number" then
      if pyFloatOk v then (true, "")
      else (false, "Not a number: " ++ bq ++ pyStr v ++ bq)
    else if jvalEqStr pt "string" then
      match v with
      | .pstr s =>
          if s == "false" || s == "true" || s == apos ++ apos then
            (false, "String should not be set to " ++ bq ++ s ++ bq)
          else
            match dictGet sp "pattern" with
            | some (.jstr p) =>
                if rm p s then (true, "")
                else (false, "Value " ++ apos ++ s ++ apos ++
                  " does not match required pattern " ++ apos ++ p ++ apos)
            | some _ => (true, "")
            | none => (true, "")
      | _ => (false, "Not a string: " ++ bq ++ pyStr v ++ bq)
    else (true, "")

/-- `SchemaValidator.validate_parameter` (schema.py lines 149-191).  Python's
`if not schema_param:` treats both a missing and an empty definition as
not found. -/
def validate_parameter (rm : String → String → Bool) (schema : JDict)
    (defsKey name : String) (v : PyVal) : Bool × String :=
  match find_parameter schema defsKey name with
  | none => (false, "Parameter not found in schema")
  | some sp =>
      if sp.isEmpty then (false, "Parameter not found in schema")
      else validateFound rm sp v

/-- Characters removed by `str(param_value).replace(".", "")`. -/
def removeDots (v : String) : String := String.mk (v.data.filter (fun c => !(c == '.')))

/-- Python `s.isdigit()` (ASCII digits; non-ASCII digit classes are not
exercised by the source's inputs). -/
def pyIsdigitStr (s : String) : Bool := !s.data.isEmpty && s.data.all (fun c => c.isDigit)

/-- The type-inference step of `SchemaValidator.add_parameter` (schema.py
lines 195-203). -/
def inferType (v : String) : String :=
  if strLower v == "true" || strLower v == "false" then "boolean"
  else if pyIsdigitStr (removeDots v) then
    (if pyIn "." v then "number" else "integer")
  else "string"

/-- `SchemaValidator.add_parameter` (schema.py lines 193-214): synthesize a
definition from the raw value and insert it under top-level `properties`. -/
def add_parameter (schema : JDict) (name value : String) : JDict :=
  let pdef : JVal := .jobj [("type", .jstr (inferType value)),
                           ("description", .jstr ("Parameter " ++ name))]
  dictSet schema "properties" (.jobj (dictSet (objOrEmpty schema "properties") name pdef))

/-!
Section: validation.py
-/

/-- `convert_param_value` (validation.py lines 17-34).  The declared type is
passed as the `JVal` read from the definition (`param_schema.get("type",
"string")`); comparisons against the type names follow Python `==`. -/
def convert_param_value (value : String) (ptype : JVal) : PyVal :=
  if jvalEqStr ptype "boolean" then .pbool (strLower value == "true")
  else if jvalEqStr ptype "integer" then
    (if pyIntStrOk value then .pint (pyIntParse value) else .pstr value)
  else if jvalEqStr ptype "number" then
    (if pyFloatStrOk value then .pfloat value else .pstr value)
  else .pstr value

/-- The per-parameter composition used by `validate_workflow_parameters`
(validation.py lines 85-104): look the definition up, convert the raw value to
the declared type, then validate.  The interactive add path (`Confirm.ask`)
for unknown parameters is modelled by its reject answer; the claims only
concern found parameters. -/
def convertAndValidate (rm : String → String → Bool) (schema : JDict)
    (defsKey name value : String) : Bool × String :=
  match find_parameter schema defsKey name with
  | some sp =>
      validate_parameter rm schema defsKey name
        (convert_param_value value (jGetD sp "type" (.jstr "string")))
  | none => (false, "Parameter not defined in schema")

/-- Python `key.removeprefix("params.")`. -/
def bareName (key : String) : String :=
  if "params.".data.isPrefixOf key.data then String.mk (key.data.drop 7) else key

/-- The ignore filter of `validate_workflow_parameters` (validation.py lines
70-73): a key is dropped when its bare name equals an ignored entry or starts
with that entry followed by a dot. -/
def isIgnoredKey (ignored : List String) (key : String) : Bool :=
  ignored.any (fun ig => bareName key == ig || pyStartswith (bareName key) (ig ++ "."))

/-- The `params_to_validate` list comprehension (validation.py lines 67-74):
keep the non-ignored declared parameters and strip the `params.` namespace. -/
def paramsToValidate (ws : List (String × String)) (ignored : List String) :
    List (String × String) :=
  (ws.filter (fun kv => !isIgnoredKey ignored kv.1)).map (fun kv => (bareName kv.1, kv.2))

/-- The draft validator dispatched to by `validate_json_schema`. -/
inductive DraftKind where
  | d2020
  | d7
deriving DecidableEq, Repr

/-- The 2020-12 `$schema` URI recognized by `validate_json_schema`. -/
def draft2020URI : String := "https://json-schema.org/draft/2020-12/schema"

/-- The draft-07 `$schema` URI recognized by `validate_json_schema`. -/
def draft7URI : String := "http://json-schema.org/draft-07/schema"

/-- The `$schema` dispatch of `validate_json_schema` (validation.py lines
37-47): a missing `$schema` reads as `""`; an unrecognized value raises
`ValueError("Unsupported schema version")`.  The delegated
`check_schema` calls are the external structural validator and are not
modelled; `.ok` states which draft validator is dispatched to. -/
def validate_json_schema (schema : JDict) : Except String DraftKind :=
  let sv := jGetD schema "$schema" (.jstr "")
  if jvalEqStr sv draft2020URI then .ok .d2020
  else if jvalEqStr sv draft7URI then .ok .d7
  else .error "Unsupported schema version"

/-!
Section: config.py — dialect resolution

The workflow configuration is the flat string-to-string mapping returned by
the external configuration fetcher, modelled as an association list.
-/

/-- `WorkflowConfig.get(key, default)` (config.py lines 22-24). -/
def cfgGet (cfg : List (String × String)) (k dflt : String) : String :=
  ((cfg.find? (fun p => p.1 == k)).map (fun p => p.2)).getD dflt

/-- The `WorkflowConfig.plugins` property (config.py lines 30-33):
`str(self.get("plugins", "")).strip("'\"").strip(" ").split(",")`. -/
def pluginsOf (cfg : List (String × String)) : List String :=
  pySplit (stripChars (stripChars (cfgGet cfg "plugins" "") [apoc, '"']) [' ']) ','

/-- The plugin-detection loop of `ValidationConfig.from_workflow` (config.py
lines 58-67): the first token containing either identifier fixes the plugin,
preferring `nf-schema` when the token contains both; no match defaults to
`nf-schema`. -/
def detectPlugin : List String → String
  | [] => "nf-schema"
  | t :: rest =>
      if pyIn "nf-schema" t || pyIn "nf-validation" t then
        (if pyIn "nf-schema" t then "nf-schema" else "nf-validation")
      else detectPlugin rest

/-- The dialect-dependent fields `ValidationConfig.from_workflow` resolves.
Source field names: `validation_plugin`, `defs_notation`, `schema_draft`,
`ignored_params`. -/
structure ResolvedConfig where
  validationPlugin : String
  defsNotation : String
  schemaDraft : String
  ignoredParams : List String
deriving DecidableEq, Repr

/-- The `validation.defaultIgnoreParams` parsing of the nf-schema branch
(config.py lines 85-93): strip brackets and quotes, split on commas, trim each
item, drop blank items. -/
def extraIgnored (cfg : List (String × String)) : List String :=
  let s := cfgGet cfg "validation.defaultIgnoreParams" ""
  if s == "" then []
  else
    let cleaned := stripChars s ['[', ']', apoc, '"']
    (pySplit cleaned ',').filterMap (fun item =>
      if stripWs item == "" then none
      else some (stripChars (stripChars (stripWs item) [apoc]) ['"']))

/-- `ValidationConfig.from_workflow` (config.py lines 51-105): pick the
dialect from the plugin list, then derive the definitions-block key, the
schema draft URI and the ignore list, dropping empty entries. -/
def from_workflow (cfg : List (String × String)) : ResolvedConfig :=
  let plugin := detectPlugin (pluginsOf cfg)
  if plugin == "nf-schema" then
    let base := [cfgGet cfg "validation.help.shortParameter" "help",
                 cfgGet cfg "validation.help.fullParameter" "helpFull",
                 cfgGet cfg "validation.help.showHiddenParameter" "showHidden",
                 "trace_report_suffix"]
    { validationPlugin := plugin,
      defsNotation := "$defs",
      schemaDraft := "https://json-schema.org/draft/2020-12/schema",
      ignoredParams := (base ++ extraIgnored cfg).filter (fun p => !(p == "")) }
  else
    let base := pySplit (stripChars (cfgGet cfg "validationSchemaIgnoreParams" "") ['"', apoc]) ','
                  ++ ["validationSchemaIgnoreParams"]
    { validationPlugin := plugin,
      defsNotation := "definitions",
      schemaDraft := "https://json-schema.org/draft-07/schema",
      ignoredParams := base.filter (fun p => !(p == "")) }

/-!
Section: http.py — SchemaServer signal state machine

`SchemaServer` holds two `threading.Event` latches, `ready` and
`schema_saved`.  The source only ever calls `.set()` on them (http.py lines
184 and 143); `.clear()` never appears.  The state machine below models one
step of the service: each constructor of `ServerOp` is one of the operations
the running server performs.
-/

/-- One observable operation of the running `SchemaServer`. -/
inductive ServerOp where
  /-- `start` reaching `self.ready.set()` after the site is bound (line 184). -/
  | startup
  /-- A WebSocket client connecting (`websocket_handler` prologue, line 132). -/
  | wsConnect (id : Nat)
  /-- A `save_schema` message (lines 139-147); `ok` is whether the file write
  succeeded — on failure an error is sent and nothing is set. -/
  | wsSave (content : String) (ok : Bool)
  /-- A `get_schema` message (lines 148-161): read-only. -/
  | wsGet (id : Nat)
  /-- A `close` message or disconnect (lines 162-170). -/
  | wsClose (id : Nat)
  /-- A POST to `/schema` broadcasting to clients (lines 98-114); `failed`
  are the clients discarded after a send error (line 96). -/
  | postSchema (failed : List Nat)
  /-- One tick of the `start` polling loop (lines 188-189). -/
  | tick
  /-- `runner.cleanup()` tearing the listener down (line 191); the `Event`
  objects are attributes of the server and are not reset. -/
  | cleanup

/-- The server state visible across threads: the two latch signals, the
connected clients and the schema file contents. -/
structure ServerState where
  ready : Bool
  schemaSaved : Bool
  websockets : List Nat
  fileContents : Option String
deriving DecidableEq, Repr

/-- The effect of one `ServerOp` on the server state, transcribed from
http.py lines 42-201. -/
def applyOp : ServerOp → ServerState → ServerState
  | .startup, s => { s with ready := true }
  | .wsConnect id, s => { s with websockets := s.websockets ++ [id] }
  | .wsSave content ok, s =>
      if ok then { s with fileContents := some content, schemaSaved := true } else s
  | .wsGet _, s => s
  | .wsClose id, s => { s with websockets := s.websockets.filter (fun x => !(x == id)) }
  | .postSchema failed, s =>
      { s with websockets := s.websockets.filter (fun x => !(failed.contains x)) }
  | .tick, s => s
  | .cleanup, s => { s with websockets := [] }

/-!
Section: Heap model of `find_parameter`'s defensive copy

The pure model above cannot express Python aliasing, so the `.copy()` at the
return sites of `SchemaValidator.find_parameter` is modelled once more over an
explicit heap of dict objects: `HVal.href` is a reference to a heap cell,
`dict.copy()` allocates a fresh cell holding the same entry list (a shallow
copy: nested references stay shared).  Lists are modelled immutably since no
modelled operation mutates a list.
-/

/-- A Python value in the heap model: primitives, immutable lists, and
references to dict objects. -/
inductive HVal where
  | hstr (s : String)
  | hbool (b : Bool)
  | hint (n : Int)
  | hlist (items : List HVal)
  | href (a : Nat)
deriving Repr

/-- The entry list of one dict object. -/
abbrev HDict := List (String × HVal)

/-- A heap of dict objects: allocated cells and the next fresh address. -/
structure Heap where
  cells : List (Nat × HDict)
  next : Nat

/-- Read the dict object at an address. -/
def heapGet (h : Heap) (a : Nat) : Option HDict :=
  ((h.cells.find? (fun c => c.1 == a)).map (fun c => c.2))

/-- Allocate a new dict object (what `dict.copy()` does with the copied
entry list). -/
def heapAlloc (h : Heap) (d : HDict) : Heap × Nat :=
  ({ cells := h.cells ++ [(h.next, d)], next := h.next + 1 }, h.next)

/-- Look a key up in a dict object's entries. -/
def hdictGet (d : HDict) (k : String) : Option HVal :=
  (d.find? (fun p => p.1 == k)).map (fun p => p.2)

/-- Overwrite or append a key in a dict object's entries. -/
def hdictSet (d : HDict) (k : String) (v : HVal) : HDict :=
  if d.any (fun p => p.1 == k) then
    d.map (fun p => if p.1 == k then (k, v) else p)
  else d ++ [(k, v)]

/-- Python `obj[k] = v` on the dict object at address `a`: mutation in place. -/
def heapWrite (h : Heap) (a : Nat) (k : String) (v : HVal) : Heap :=
  { h with cells := h.cells.map (fun c => if c.1 == a then (a, hdictSet c.2 k v) else c) }

/-- Follow `d.get(k, {})` where a present value is a reference to a dict
object; missing keys and non-references read as the empty dict. -/
def derefDict (h : Heap) (v : Option HVal) : HDict :=
  match v with
  | some (.href a) => (heapGet h a).getD []
  | _ => []

/-- Every allocated address is below `next`, so allocation is fresh. -/
def heapWF (h : Heap) : Bool := h.cells.all (fun c => c.1 < h.next)

/-- The `allOf` scan of `find_parameter`, heap version, returning the address
of the located definition object (schema.py lines 137-145, before the copy). -/
def locateInSections (h : Heap) (schema : HDict) (defsKey name : String) :
    List HVal → Option Nat
  | [] => none
  | sec :: rest =>
      let secd := match sec with | .href a => (heapGet h a).getD [] | _ => []
      match hdictGet secd "$ref" with
      | some (.hstr r) =>
          let defName := lastSegment r
          let defs := derefDict h (hdictGet schema defsKey)
          match hdictGet defs defName with
          | some (.href d) =>
              let defn := (heapGet h d).getD []
              let defProps := derefDict h (hdictGet defn "properties")
              match hdictGet defProps name with
              | some (.href p) => some p
              | _ => locateInSections h schema defsKey name rest
          | _ => locateInSections h schema defsKey name rest
      | _ => locateInSections h schema defsKey name rest

/-- The scan of `find_parameter` (schema.py lines 129-147) up to, but not
including, the `.copy()` at the return sites: the address of the located
definition object. -/
def locateParam (h : Heap) (root : Nat) (defsKey name : String) : Option Nat :=
  let schema := (heapGet h root).getD []
  let props := derefDict h (hdictGet schema "properties")
  match hdictGet props name with
  | some (.href a) => some a
  | _ =>
      let sections := match hdictGet schema "allOf" with | some (.hlist l) => l | _ => []
      locateInSections h schema defsKey name sections

/-- `SchemaValidator.find_parameter` in the heap model: locate the definition
object, then return `.copy()` — a freshly allocated cell holding the same
entry list, nested references shared. -/
def find_parameter_h (h : Heap) (root : Nat) (defsKey name : String) :
    Option Nat × Heap :=
  match locateParam h root defsKey name with
  | some a =>
      let alloc := heapAlloc h ((heapGet h a).getD [])
      (some alloc.2, alloc.1)
  | none => (none, h)

/-!
Section: Helper lemmas
-/

/-- A value compares `==`-equal to a string literal only when it is that string. -/
theorem jvalEqStr_elim : ∀ (x : JVal) (t : String), jvalEqStr x t = true → x = .jstr t := by
  intro x t h
  cases x with
  | jstr s => simp [jvalEqStr] at h; rw [h]
  | jbool b => simp [jvalEqStr] at h
  | jint n => simp [jvalEqStr] at h
  | jobj f => simp [jvalEqStr] at h
  | jarr l => simp [jvalEqStr] at h

/-- A found, non-empty definition routes `validate_parameter` to `validateFound`. -/
theorem validate_parameter_found (rm : String → String → Bool) (schema : JDict)
    (dk n : String) (v : PyVal) (sp : JDict)
    (hfind : find_parameter schema dk n = some sp) (hsp : sp.isEmpty = false) :
    validate_parameter rm schema dk n v = validateFound rm sp v := by
  simp [validate_parameter, hfind, hsp]

/-- A definition whose declared type reads as anything but `"string"` is non-empty,
since the empty dict defaults to type `"string"`. -/
theorem nonempty_of_type_ne_string : ∀ (sp : JDict) (t : String),
    jvalEqStr (jGetD sp "type" (.jstr "string")) t = true → ¬ t = "string" →
    sp.isEmpty = false := by
  intro sp t h hne
  cases sp with
  | nil =>
      have h2 := jvalEqStr_elim _ _ h
      simp [jGetD, dictGet] at h2
      exact (hne h2.symm).elim
  | cons a l => rfl

/-- Characterization of `validateFound` on a non-hidden boolean-typed definition. -/
theorem validateFound_boolean (rm : String → String → Bool) (sp : JDict) (v : PyVal)
    (hhid : truthy (jGetD sp "hidden" (.jbool false)) = false)
    (htype : jvalEqStr (jGetD sp "type" (.jstr "string")) "boolean" = true) :
    ((validateFound rm sp v).fst = true ↔
      pyEqStr v "null" = true ∨ strLower (pyStr v) = "true" ∨ strLower (pyStr v) = "false") := by
  have hpt := jvalEqStr_elim _ _ htype
  unfold validateFound
  rw [hpt]
  simp only [hhid, Bool.false_eq_true, if_false, jvalEqStr]
  by_cases hnull : pyEqStr v "null" = true
  · simp [hnull]
  · have hnull' : pyEqStr v "null" = false := Bool.eq_false_iff.mpr hnull
    simp only [hnull', Bool.false_eq_true, if_false]
    by_cases ha : strLower (pyStr v) = "true"
    · simp [ha]
    · by_cases hb : strLower (pyStr v) = "false"
      · simp [ha, hb]
      · simp [ha, hb]

/-- An always-false and an always-true `re.match` oracle, for concrete runs. -/
def rmFalse : String → String → Bool := fun _ _ => false

/-- An oracle under which every pattern matches. -/
def rmTrue : String → String → Bool := fun _ _ => true

/-- A schema with a single boolean-typed top-level parameter. -/
def exSchemaBool : JDict :=
  [("properties", .jobj [("flag", .jobj [("type", .jstr "boolean")])])]

/-!
Section: C1
-/

/-- C1, counterexample: with the boolean-typed, found, non-hidden parameter
`flag`, the value `"null"` is reported valid although `str(v).lower()` is
neither `"true"` nor `"false"` — the sentinel check precedes the type check,
so the claimed equivalence fails at `v = "null"`. -/
theorem validate_boolean_null_counterexample :
    (validate_parameter rmFalse exSchemaBool "$defs" "flag" (.pstr "null")).fst = true
    ∧ strLower (pyStr (.pstr "null")) ≠ "true"
    ∧ strLower (pyStr (.pstr "null")) ≠ "false"
    ∧ find_parameter exSchemaBool "$defs" "flag" = some [("type", JVal.jstr "boolean")]
    ∧ truthy (jGetD [("type", JVal.jstr "boolean")] "hidden" (.jbool false)) = false := by
  exact ⟨rfl, by decide, by decide, rfl, rfl⟩

/-- C1 (amended): for every value `v` and every found, non-hidden parameter
definition with declared type `boolean`, `validate_parameter` reports valid if
and only if `v` is the sentinel string `"null"` or `str(v).lower()` is exactly
`"true"` or `"false"`. -/
theorem validate_boolean_iff :
  ∀ (rm : String → String → Bool) (schema : JDict) (dk n : String) (v : PyVal) (sp : JDict),
    find_parameter schema dk n = some sp →
    truthy (jGetD sp "hidden" (.jbool false)) = false →
    jvalEqStr (jGetD sp "type" (.jstr "string")) "boolean" = true →
    ((validate_parameter rm schema dk n v).fst = true ↔
      pyEqStr v "null" = true ∨ strLower (pyStr v) = "true" ∨ strLower (pyStr v) = "false") := by
  intro rm schema dk n v sp hfind hhid htype
  rw [validate_parameter_found rm schema dk n v sp hfind
      (nonempty_of_type_ne_string sp "boolean" htype (by decide))]
  exact validateFound_boolean rm sp v hhid htype

/-- C1 witness: the amended equivalence evaluated on the `flag` schema at the
value `"TRUE"`. -/
theorem validate_boolean_iff_witness :
    (validate_parameter rmFalse exSchemaBool "$defs" "flag" (.pstr "TRUE")).fst = true :=
  (validate_boolean_iff rmFalse exSchemaBool "$defs" "flag" (.pstr "TRUE")
      [("type", JVal.jstr "boolean")] rfl rfl rfl).mpr
    (Or.inr (Or.inl (by decide)))

/-!
Section: C6
-/

/-- A schema with a single string-typed, pattern-carrying top-level parameter. -/
def exSchemaStr : JDict :=
  [("properties", .jobj [("name",
      .jobj [("type", .jstr "string"), ("pattern", .jstr "^t.*")])])]

/-- C6: for every value validated against a found, non-hidden definition of
declared type `string`, validation fails whenever `str(v)` is exactly
`"true"`, `"false"`, or `"''"`, regardless of any declared pattern (the
sentinel rejection — or, for non-string values, the `isinstance` rejection —
happens before the pattern is consulted). -/
theorem validate_string_sentinel_fails :
  ∀ (rm : String → String → Bool) (schema : JDict) (dk n : String) (v : PyVal) (sp : JDict),
    find_parameter schema dk n = some sp →
    truthy (jGetD sp "hidden" (.jbool false)) = false →
    jvalEqStr (jGetD sp "type" (.jstr "string")) "string" = true →
    (pyStr v = "true" ∨ pyStr v = "false" ∨ pyStr v = apos ++ apos) →
    (validate_parameter rm schema dk n v).fst = false := by
  intro rm schema dk n v sp hfind hhid htype hv
  cases hsp : sp.isEmpty with
  | true => simp [validate_parameter, hfind, hsp]
  | false =>
      rw [validate_parameter_found rm schema dk n v sp hfind hsp]
      have hpt := jvalEqStr_elim _ _ htype
      unfold validateFound
      rw [hpt]
      simp only [hhid, Bool.false_eq_true, if_false, jvalEqStr]
      cases v with
      | pstr s =>
          have hs : s = "true" ∨ s = "false" ∨ s = apos ++ apos := hv
          have hnull : pyEqStr (.pstr s) "null" = false := by
            rcases hs with h | h | h <;> subst h <;> decide
          have hmem : (s == "false" || s == "true" || s == apos ++ apos) = true := by
            rcases hs with h | h | h <;> subst h <;> decide
          simp only [hnull, Bool.false_eq_true, if_false]
          simp [hmem]
      | pbool b =>
          have hnull : pyEqStr (.pbool b) "null" = false := rfl
          simp only [hnull, Bool.false_eq_true, if_false]
          simp [pyEqStr]
      | pint nn =>
          have hnull : pyEqStr (.pint nn) "null" = false := rfl
          simp only [hnull, Bool.false_eq_true, if_false]
          simp [pyEqStr]
      | pfloat fs =>
          have hnull : pyEqStr (.pfloat fs) "null" = false := rfl
          simp only [hnull, Bool.false_eq_true, if_false]
          simp [pyEqStr]

/-- C6 witness: on a string-typed parameter carrying a pattern, the value
`"true"` is rejected even under an oracle where every pattern matches. -/
theorem validate_string_sentinel_fails_witness :
    (validate_parameter rmTrue exSchemaStr "$defs" "name" (.pstr "true")).fst = false :=
  validate_string_sentinel_fails rmTrue exSchemaStr "$defs" "name" (.pstr "true")
    [("type", JVal.jstr "string"), ("pattern", JVal.jstr "^t.*")]
    rfl rfl rfl (Or.inl rfl)

/-!
Section: C10
-/

/-- C10: through the composition used by the validation run —
`convert_param_value` followed by `validate_parameter` — a found, non-hidden,
boolean-typed parameter is always reported valid on any raw string value,
because the conversion yields a Python boolean whose lowercased string form
is always `"true"` or `"false"`. -/
theorem boolean_pipeline_always_valid :
  ∀ (rm : String → String → Bool) (schema : JDict) (dk n value : String) (sp : JDict),
    find_parameter schema dk n = some sp →
    truthy (jGetD sp "hidden" (.jbool false)) = false →
    jvalEqStr (jGetD sp "type" (.jstr "string")) "boolean" = true →
    (convertAndValidate rm schema dk n value).fst = true := by
  intro rm schema dk n value sp hfind hhid htype
  have hpt := jvalEqStr_elim _ _ htype
  have hconv : convert_param_value value (jGetD sp "type" (.jstr "string"))
      = .pbool (strLower value == "true") := by
    rw [hpt]; rfl
  have hne : sp.isEmpty = false :=
    nonempty_of_type_ne_string sp "boolean" htype (by decide)
  unfold convertAndValidate
  rw [hfind]
  simp only []
  rw [hconv, validate_parameter_found rm schema dk n _ sp hfind hne]
  refine (validateFound_boolean rm sp _ hhid htype).mpr ?_
  cases hb : strLower value == "true"
  · exact Or.inr (Or.inr (by decide))
  · exact Or.inr (Or.inl (by decide))

/-- C10 witness: on the boolean-typed `flag` parameter, the raw value
`"whatever"` passes the convert-then-validate pipeline. -/
theorem boolean_pipeline_always_valid_witness :
    (convertAndValidate rmFalse exSchemaBool "$defs" "flag" "whatever").fst = true :=
  boolean_pipeline_always_valid rmFalse exSchemaBool "$defs" "flag" "whatever"
    [("type", JVal.jstr "boolean")] rfl rfl rfl

/-!
Section: C2
-/

/-- C2: when a parameter name is a key of top-level `properties` (with a
mapping value) and also appears in the properties of a definitions-block entry
referenced from the `allOf` sequence, `find_parameter` returns the top-level
definition — top-level properties are scanned first, first match wins, no
merging. -/
theorem find_parameter_top_level_wins :
  ∀ (schema : JDict) (dk n : String) (f g : JDict),
    dictGet (objOrEmpty schema "properties") n = some (.jobj f) →
    findInAllOf schema dk n (jAsArr (jGetD schema "allOf" (.jarr []))) = some g →
    find_parameter schema dk n = some f := by
  intro schema dk n f g htop _
  simp [find_parameter, htop]

/-- A schema declaring `p` both at top level (type integer) and inside the
referenced `$defs` block `blk` (type string). -/
def exSchemaDup : JDict :=
  [("properties", .jobj [("p", .jobj [("type", .jstr "integer")])]),
   ("allOf", .jarr [.jobj [("$ref", .jstr "#/$defs/blk")]]),
   ("$defs", .jobj [("blk",
      .jobj [("properties", .jobj [("p", .jobj [("type", .jstr "string")])])])])]

/-- C2 witness: on `exSchemaDup` both lookups succeed and resolution returns
the top-level integer-typed definition. -/
theorem find_parameter_top_level_wins_witness :
    find_parameter exSchemaDup "$defs" "p" = some [("type", JVal.jstr "integer")] :=
  find_parameter_top_level_wins exSchemaDup "$defs" "p"
    [("type", JVal.jstr "integer")] [("type", JVal.jstr "string")] rfl rfl

/-!
Section: C3
-/

/-- C3: the validation run excludes a declared key exactly when its bare name
(the key with the `params.` namespace removed) equals some entry of the ignore
list or starts with that entry followed by a dot; in particular
`params.foo.bar` is excluded whenever `foo` is ignored, even though `foo.bar`
is not listed verbatim. -/
theorem workflow_param_exclusion :
  ∀ (ignored : List String) (key value : String),
    (paramsToValidate [(key, value)] ignored = [] ↔
      ∃ ig ∈ ignored, bareName key = ig ∨ (ig ++ ".").data <+: (bareName key).data) ∧
    ((¬ ∃ ig ∈ ignored, bareName key = ig ∨ (ig ++ ".").data <+: (bareName key).data) →
      paramsToValidate [(key, value)] ignored = [(bareName key, value)]) ∧
    (("foo" : String) ∈ ignored → paramsToValidate [("params.foo.bar", value)] ignored = []) := by
  intro ignored key value
  have hiff : ∀ k : String, isIgnoredKey ignored k = true ↔
      ∃ ig ∈ ignored, bareName k = ig ∨ (ig ++ ".").data <+: (bareName k).data := by
    intro k
    simp only [isIgnoredKey, List.any_eq_true, Bool.or_eq_true, beq_iff_eq,
      pyStartswith, List.isPrefixOf_iff_prefix]
  refine ⟨?_, ?_, ?_⟩
  · constructor
    · intro h
      by_cases hig : isIgnoredKey ignored key = true
      · exact (hiff key).mp hig
      · have : isIgnoredKey ignored key = false := Bool.eq_false_iff.mpr hig
        simp [paramsToValidate, this] at h
    · intro h
      have hig := (hiff key).mpr h
      simp [paramsToValidate, hig]
  · intro h
    have hig : isIgnoredKey ignored key = false :=
      Bool.eq_false_iff.mpr (fun hc => h ((hiff key).mp hc))
    simp [paramsToValidate, hig]
  · intro hfoo
    have hig : isIgnoredKey ignored "params.foo.bar" = true :=
      List.any_eq_true.mpr ⟨"foo", hfoo, by decide⟩
    simp [paramsToValidate, hig]

/-- C3 witness: with `foo` in the ignore list, the declared key
`params.foo.bar` is excluded from the run. -/
theorem workflow_param_exclusion_witness :
    paramsToValidate [("params.foo.bar", "1")] ["foo"] = [] :=
  (workflow_param_exclusion ["foo"] "params.foo.bar" "1").2.2 (by simp)

/-!
Section: C5
-/

/-- `find?` over the in-place update hits the updated entry when the key was present. -/
theorem find_map_set_self : ∀ (t : JDict) (k : String) (v : JVal),
    t.any (fun p => p.1 == k) = true →
    (t.map (fun p => if p.1 == k then (k, v) else p)).find? (fun p => p.1 == k)
      = some (k, v) := by
  intro t k v h
  induction t with
  | nil => simp at h
  | cons b u ih =>
      cases b with
      | mk b1 b2 =>
          by_cases hb : (b1 == k) = true
          · simp [List.find?, hb]
          · have hb' : (b1 == k) = false := Bool.eq_false_iff.mpr hb
            simp only [List.any_cons, hb', Bool.false_or] at h
            simp only [List.map_cons, hb', Bool.false_eq_true, if_false, List.find?, hb']
            exact ih h

/-- `find?` over the append hits the appended entry when the key was absent. -/
theorem find_append_self : ∀ (t : JDict) (k : String) (v : JVal),
    t.any (fun p => p.1 == k) = false →
    (t ++ [(k, v)]).find? (fun p => p.1 == k) = some (k, v) := by
  intro t k v h
  induction t with
  | nil => simp [List.find?]
  | cons b u ih =>
      cases b with
      | mk b1 b2 =>
          simp only [List.any_cons, Bool.or_eq_false_iff] at h
          simp only [List.cons_append, List.find?, h.1]
          exact ih h.2

/-- The in-place update is invisible to lookups of other keys. -/
theorem find_map_set_ne : ∀ (t : JDict) (k k2 : String) (v : JVal),
    (k == k2) = false →
    (t.map (fun p => if p.1 == k then (k, v) else p)).find? (fun p => p.1 == k2)
      = t.find? (fun p => p.1 == k2) := by
  intro t k k2 v hkk
  induction t with
  | nil => rfl
  | cons b u ih =>
      cases b with
      | mk b1 b2 =>
          by_cases hb : (b1 == k) = true
          · have hb1 : b1 = k := beq_iff_eq.mp hb
            have hb2 : (b1 == k2) = false := by rw [hb1]; exact hkk
            simp only [List.map_cons, hb, if_true, List.find?, hkk, hb2]
            exact ih
          · have hb' : (b1 == k) = false := Bool.eq_false_iff.mpr hb
            simp only [List.map_cons, hb', Bool.false_eq_true, if_false, List.find?]
            cases hb2 : (b1 == k2) with
            | true => rfl
            | false => exact ih

/-- The append is invisible to lookups of other keys. -/
theorem find_append_ne : ∀ (t : JDict) (k k2 : String) (v : JVal),
    (k == k2) = false →
    (t ++ [(k, v)]).find? (fun p => p.1 == k2) = t.find? (fun p => p.1 == k2) := by
  intro t k k2 v hkk
  induction t with
  | nil => simp [List.find?, hkk]
  | cons b u ih =>
      simp only [List.cons_append, List.find?]
      cases hb2 : (b.1 == k2) with
      | true => rfl
      | false => exact ih

/-- Reading back the key just written by `dictSet`. -/
theorem dictGet_dictSet_self : ∀ (d : JDict) (k : String) (v : JVal),
    dictGet (dictSet d k v) k = some v := by
  intro d k v
  unfold dictSet dictGet
  cases h : d.any (fun p => p.1 == k) with
  | true => rw [if_pos rfl, find_map_set_self d k v h]; rfl
  | false => rw [if_neg (by simp), find_append_self d k v h]; rfl

/-- `dictSet` leaves every other key unchanged. -/
theorem dictGet_dictSet_ne : ∀ (d : JDict) (k k2 : String) (v : JVal),
    ¬ k2 = k → dictGet (dictSet d k v) k2 = dictGet d k2 := by
  intro d k k2 v hne
  have hkk : (k == k2) = false :=
    Bool.eq_false_iff.mpr (fun h => hne (beq_iff_eq.mp h).symm)
  unfold dictSet dictGet
  cases h : d.any (fun p => p.1 == k) with
  | true => rw [if_pos rfl, find_map_set_ne d k k2 v hkk]
  | false => rw [if_neg (by simp), find_append_ne d k k2 v hkk]

/-- Modelled from the claim's words: a raw value is "syntactically boolean"
when its surface form is `true`/`false` up to case. -/
def specSynBool (s : String) : Bool := strLower s == "true" || strLower s == "false"

/-- Modelled from the claim's words: a raw value is "syntactically integer"
when it is an optional sign followed by one or more digits. -/
def specSynInt (s : String) : Bool := digitsNonempty (afterSign s.data)

/-- Modelled from the claim's words: a raw value is "syntactically float"
when it is an optional sign followed by a decimal literal (optionally with an
exponent). -/
def specSynFloat (s : String) : Bool := mantissaOk (afterSign s.data)

/-- C5, counterexample: the raw value `"1.2.3"` is not syntactically boolean,
integer or float — `float("1.2.3")` raises in Python — so the claim demands
inferred type `"string"`; but `add_parameter`'s inference strips the dots,
sees only digits, and infers `"number"`. -/
theorem infer_type_counterexample :
    specSynBool "1.2.3" = false ∧ specSynInt "1.2.3" = false ∧
    specSynFloat "1.2.3" = false ∧ inferType "1.2.3" = "number" := by
  refine ⟨by decide, by decide, by decide, by decide⟩

/-- C5 (amended): `add_parameter` inserts under the parameter name, in the
top-level `properties` region only, a definition whose type is the
deterministic surface-form inference of the raw value: `"boolean"` when the
lowercased value is `true`/`false`, else `"number"`/`"integer"` when the
value with dots removed is a nonempty digit string (number if a dot was
present), else `"string"`; every key of the schema other than `properties`
(in particular any definitions block) is untouched, and re-registering the
same raw value stores the same inferred type. -/
theorem add_parameter_amended :
  ∀ (schema : JDict) (name value : String),
    (dictGet schema "properties" = none ∨ ∃ f, dictGet schema "properties" = some (.jobj f)) →
    dictGet (objOrEmpty (add_parameter schema name value) "properties") name
      = some (.jobj [("type", .jstr (inferType value)),
                     ("description", .jstr ("Parameter " ++ name))])
    ∧ (∀ k, ¬ k = "properties" → dictGet (add_parameter schema name value) k = dictGet schema k)
    ∧ dictGet (objOrEmpty (add_parameter (add_parameter schema name value) name value) "properties") name
      = dictGet (objOrEmpty (add_parameter schema name value) "properties") name
    ∧ inferType value
      = (if strLower value == "true" || strLower value == "false" then "boolean"
         else if pyIsdigitStr (removeDots value) then
           (if pyIn "." value then "number" else "integer")
         else "string") := by
  intro schema name value _
  have hprops : ∀ s : JDict,
      objOrEmpty (add_parameter s name value) "properties"
        = dictSet (objOrEmpty s "properties") name
            (.jobj [("type", .jstr (inferType value)),
                    ("description", .jstr ("Parameter " ++ name))]) := by
    intro s
    unfold add_parameter objOrEmpty jGetD
    rw [dictGet_dictSet_self]
    rfl
  refine ⟨?_, ?_, ?_, rfl⟩
  · rw [hprops schema, dictGet_dictSet_self]
  · intro k hk
    unfold add_parameter
    exact dictGet_dictSet_ne schema "properties" k _ hk
  · rw [hprops (add_parameter schema name value), hprops schema,
      dictGet_dictSet_self, dictGet_dictSet_self]

/-- C5 witness: registering `someNum = "42"` in an empty schema stores an
integer-typed definition at top level. -/
theorem add_parameter_amended_witness :
    dictGet (objOrEmpty (add_parameter [] "someNum" "42") "properties") "someNum"
      = some (.jobj [("type", .jstr (inferType "42")),
                     ("description", .jstr ("Parameter " ++ "someNum"))])
    ∧ inferType "42" = "integer" :=
  ⟨(add_parameter_amended [] "someNum" "42" (Or.inl rfl)).1, by decide⟩

/-!
Section: C4
-/

/-- The detection loop picks `nf-validation` for the first identifier-bearing
token when no token up to and including it contains `nf-schema`. -/
theorem detectPlugin_validation : ∀ (pre : List String) (t : String) (post : List String),
    pyIn "nf-validation" t = true → pyIn "nf-schema" t = false →
    (∀ u ∈ pre, pyIn "nf-schema" u = false) →
    detectPlugin (pre ++ t :: post) = "nf-validation" := by
  intro pre t post hv hs hpre
  induction pre with
  | nil =>
      simp only [List.nil_append, detectPlugin, hv, hs, Bool.false_or, if_true,
        Bool.false_eq_true, if_false]
  | cons u pre ih =>
      have hu : pyIn "nf-schema" u = false := hpre u (List.mem_cons_self u pre)
      have hrest : ∀ w ∈ pre, pyIn "nf-schema" w = false :=
        fun w hw => hpre w (List.mem_cons_of_mem u hw)
      cases huv : pyIn "nf-validation" u with
      | true =>
          simp only [List.cons_append, detectPlugin, hu, huv, Bool.false_or, if_true,
            Bool.false_eq_true, if_false]
      | false =>
          simp only [List.cons_append, detectPlugin, hu, huv, Bool.false_or,
            Bool.false_eq_true, if_false]
          exact ih hrest

/-- The detection loop defaults to `nf-schema` when no token contains either
identifier. -/
theorem detectPlugin_default : ∀ (toks : List String),
    (∀ u ∈ toks, pyIn "nf-schema" u = false ∧ pyIn "nf-validation" u = false) →
    detectPlugin toks = "nf-schema" := by
  intro toks h
  induction toks with
  | nil => rfl
  | cons u rest ih =>
      have hu := h u (List.mem_cons_self u rest)
      simp only [detectPlugin, hu.1, hu.2, Bool.false_or, Bool.false_eq_true, if_false]
      exact ih (fun w hw => h w (List.mem_cons_of_mem u hw))

/-- The fields `from_workflow` resolves when the detected plugin is
`nf-validation`. -/
theorem from_workflow_validation_fields : ∀ (cfg : List (String × String)),
    detectPlugin (pluginsOf cfg) = "nf-validation" →
    (from_workflow cfg).defsNotation = "definitions" ∧
    (from_workflow cfg).schemaDraft = "https://json-schema.org/draft-07/schema" ∧
    "validationSchemaIgnoreParams" ∈ (from_workflow cfg).ignoredParams := by
  intro cfg hdet
  unfold from_workflow
  rw [hdet]
  have hne : (("nf-validation" : String) == "nf-schema") = false := by decide
  rw [if_neg (by simp [hne])]
  refine ⟨rfl, rfl, ?_⟩
  refine List.mem_filter.mpr ⟨List.mem_append_right _ ?_, by decide⟩
  exact List.mem_singleton.mpr rfl

/-- C4, counterexample: the single plugin token `"nf-schema nf-validation"`
contains `nf-validation` with no earlier token at all, so the claim demands
dialect B (`defs_notation = "definitions"`); but the code checks the same
token for `nf-schema` first and resolves dialect A. -/
theorem dialect_detection_counterexample :
    pluginsOf [("plugins", "nf-schema nf-validation")] = ["nf-schema nf-validation"] ∧
    pyIn "nf-validation" "nf-schema nf-validation" = true ∧
    (from_workflow [("plugins", "nf-schema nf-validation")]).defsNotation = "$defs" ∧
    ¬ (from_workflow [("plugins", "nf-schema nf-validation")]).defsNotation = "definitions" := by
  refine ⟨by decide, by decide, by decide, by decide⟩

/-- C4 (amended): when the trimmed, comma-split plugin list has a token
containing `nf-validation` such that neither it nor any earlier token
contains `nf-schema`, the resolved dialect is B: `defs_notation =
"definitions"`, the draft-07 schema URI, and `ignored_params` containing
`validationSchemaIgnoreParams`; and when no token contains either
identifier, the dialect defaults to nf-schema (dialect A). -/
theorem dialect_detection :
  ∀ cfg : List (String × String),
    (∀ pre t post, pluginsOf cfg = pre ++ t :: post →
       pyIn "nf-validation" t = true → pyIn "nf-schema" t = false →
       (∀ u ∈ pre, pyIn "nf-schema" u = false) →
       (from_workflow cfg).defsNotation = "definitions" ∧
       (from_workflow cfg).schemaDraft = "https://json-schema.org/draft-07/schema" ∧
       "validationSchemaIgnoreParams" ∈ (from_workflow cfg).ignoredParams) ∧
    ((∀ u ∈ pluginsOf cfg, pyIn "nf-schema" u = false ∧ pyIn "nf-validation" u = false) →
       (from_workflow cfg).validationPlugin = "nf-schema" ∧
       (from_workflow cfg).defsNotation = "$defs" ∧
       (from_workflow cfg).schemaDraft = "https://json-schema.org/draft/2020-12/schema") := by
  intro cfg
  constructor
  · intro pre t post hsplit hv hs hpre
    refine from_workflow_validation_fields cfg ?_
    rw [hsplit]
    exact detectPlugin_validation pre t post hv hs hpre
  · intro hnone
    have hdet : detectPlugin (pluginsOf cfg) = "nf-schema" := detectPlugin_default _ hnone
    unfold from_workflow
    rw [hdet, if_pos (by decide)]
    exact ⟨rfl, rfl, rfl⟩

/-- C4 witness: the configuration `plugins = "nf-validation"` resolves to
dialect B with the draft-07 URI and the dialect-B ignore parameter ignored. -/
theorem dialect_detection_witness :
    (from_workflow [("plugins", "nf-validation")]).defsNotation = "definitions" ∧
    (from_workflow [("plugins", "nf-validation")]).schemaDraft
      = "https://json-schema.org/draft-07/schema" ∧
    "validationSchemaIgnoreParams" ∈ (from_workflow [("plugins", "nf-validation")]).ignoredParams :=
  (dialect_detection [("plugins", "nf-validation")]).1 [] "nf-validation" []
    (by decide) (by decide) (by decide) (by intro u hu; simp at hu)

/-!
Section: C9
-/

/-- C9: the structural validation step dispatches to the 2020-12 validator
exactly when `$schema` is the 2020-12 URI, to the draft-07 validator exactly
when it is the draft-07 URI, and for any other `$schema` value — a missing
one included, which reads as `""` — raises the unsupported-schema-version
error. -/
theorem validate_json_schema_dispatch :
  ∀ schema : JDict,
    (validate_json_schema schema = .ok .d2020 ↔
       jvalEqStr (jGetD schema "$schema" (.jstr "")) draft2020URI = true) ∧
    (validate_json_schema schema = .ok .d7 ↔
       (jvalEqStr (jGetD schema "$schema" (.jstr "")) draft2020URI = false ∧
        jvalEqStr (jGetD schema "$schema" (.jstr "")) draft7URI = true)) ∧
    ((jvalEqStr (jGetD schema "$schema" (.jstr "")) draft2020URI = false ∧
      jvalEqStr (jGetD schema "$schema" (.jstr "")) draft7URI = false) →
      validate_json_schema schema = .error "Unsupported schema version") ∧
    (dictGet schema "$schema" = none →
      validate_json_schema schema = .error "Unsupported schema version") := by
  intro schema
  unfold validate_json_schema
  cases h1 : jvalEqStr (jGetD schema "$schema" (.jstr "")) draft2020URI with
  | true =>
      simp only [h1, if_true]
      refine ⟨by simp, by simp, by simp, ?_⟩
      intro hnone
      have : jGetD schema "$schema" (.jstr "") = .jstr "" := by
        simp [jGetD, hnone]
      rw [this] at h1
      have : draft2020URI = "" := (JVal.jstr.injEq _ _).mp (jvalEqStr_elim _ _ h1).symm
      exact absurd this (by decide)
  | false =>
      simp only [h1, Bool.false_eq_true, if_false]
      cases h2 : jvalEqStr (jGetD schema "$schema" (.jstr "")) draft7URI with
      | true =>
          simp only [if_true]
          refine ⟨by simp, by simp [h2], by simp [h2], ?_⟩
          intro hnone
          have hg : jGetD schema "$schema" (.jstr "") = .jstr "" := by
            simp [jGetD, hnone]
          rw [hg] at h2
          have : draft7URI = "" := (JVal.jstr.injEq _ _).mp (jvalEqStr_elim _ _ h2).symm
          exact absurd this (by decide)
      | false => simp

/-- C9 witness: the empty document — `$schema` missing — is rejected as an
unsupported schema version. -/
theorem validate_json_schema_dispatch_witness :
    validate_json_schema [] = .error "Unsupported schema version" :=
  (validate_json_schema_dispatch []).2.2.2 rfl

/-!
Section: C8
-/

/-- C8: across every operation of the editor synchronization service — schema
read, schema write, finish/close, broadcast, start-loop tick, connect,
startup, teardown — the `ready` and `schema_saved` signals are latches: once
true they stay true; no transition resets either. -/
theorem server_signals_latch :
  ∀ (op : ServerOp) (s : ServerState),
    (s.ready = true → (applyOp op s).ready = true) ∧
    (s.schemaSaved = true → (applyOp op s).schemaSaved = true) := by
  intro op s
  cases op with
  | startup => exact ⟨fun _ => rfl, fun h => h⟩
  | wsConnect id => exact ⟨fun h => h, fun h => h⟩
  | wsSave content ok =>
      cases ok with
      | true => exact ⟨fun h => h, fun _ => rfl⟩
      | false => exact ⟨fun h => h, fun h => h⟩
  | wsGet id => exact ⟨fun h => h, fun h => h⟩
  | wsClose id => exact ⟨fun h => h, fun h => h⟩
  | postSchema failed => exact ⟨fun h => h, fun h => h⟩
  | tick => exact ⟨fun h => h, fun h => h⟩
  | cleanup => exact ⟨fun h => h, fun h => h⟩

/-- C8 witness: a `close` message right after a successful save leaves both
signals set. -/
theorem server_signals_latch_witness :
    (applyOp (.wsClose 0) ⟨true, true, [0], some "s"⟩).ready = true ∧
    (applyOp (.wsClose 0) ⟨true, true, [0], some "s"⟩).schemaSaved = true :=
  ⟨(server_signals_latch (.wsClose 0) ⟨true, true, [0], some "s"⟩).1 rfl,
   (server_signals_latch (.wsClose 0) ⟨true, true, [0], some "s"⟩).2 rfl⟩

/-!
Section: C7
-/

/-- `find?` ignores an appended element when it already succeeds. -/
theorem find_cells_append : ∀ (l : List (Nat × HDict)) (e : Nat × HDict)
    (q : Nat × HDict → Bool) (c : Nat × HDict),
    l.find? q = some c → (l ++ [e]).find? q = some c := by
  intro l e q c h
  induction l with
  | nil => simp [List.find?] at h
  | cons b u ih =>
      simp only [List.cons_append, List.find?] at h ⊢
      cases hb : q b with
      | true => rw [hb] at h; exact h
      | false => rw [hb] at h; exact ih h

/-- Allocation preserves every existing heap cell. -/
theorem heapGet_alloc : ∀ (h : Heap) (x : HDict) (a : Nat) (d : HDict),
    heapGet h a = some d → heapGet (heapAlloc h x).1 a = some d := by
  intro h x a d hget
  unfold heapGet at hget ⊢
  cases hf : h.cells.find? (fun c => c.1 == a) with
  | none => rw [hf] at hget; simp at hget
  | some c =>
      rw [hf] at hget
      show Option.map (fun c => c.2)
        ((h.cells ++ [(h.next, x)]).find? (fun c => c.1 == a)) = some d
      rw [find_cells_append h.cells (h.next, x) _ c hf]
      exact hget

/-- In a well-formed heap every readable address is below `next`. -/
theorem heapGet_lt_next : ∀ (h : Heap) (a : Nat) (d : HDict),
    heapWF h = true → heapGet h a = some d → a < h.next := by
  intro h a d hwf hget
  unfold heapGet at hget
  cases hf : h.cells.find? (fun c => c.1 == a) with
  | none => rw [hf] at hget; simp at hget
  | some c =>
      have hmem : c ∈ h.cells := List.mem_of_find?_eq_some hf
      have hq := List.find?_some hf
      have ha : c.1 = a := by simpa using hq
      have hlt : c.1 < h.next := by
        have h2 := List.all_eq_true.mp hwf c hmem
        simpa using h2
      rw [← ha]
      exact hlt

/-- The in-place write at one address is invisible at other addresses. -/
theorem find_map_write_ne : ∀ (t : List (Nat × HDict)) (r a : Nat) (k : String) (v : HVal),
    ((r : Nat) == a) = false →
    (t.map (fun c => if c.1 == r then (r, hdictSet c.2 k v) else c)).find? (fun c => c.1 == a)
      = t.find? (fun c => c.1 == a) := by
  intro t r a k v hra
  induction t with
  | nil => rfl
  | cons b u ih =>
      cases b with
      | mk b1 b2 =>
          by_cases hb : (b1 == r) = true
          · have hb1 : b1 = r := beq_iff_eq.mp hb
            have hb2 : (b1 == a) = false := by rw [hb1]; exact hra
            simp only [List.map_cons, hb, if_true, List.find?, hra, hb2]
            exact ih
          · have hb' : (b1 == r) = false := Bool.eq_false_iff.mpr hb
            simp only [List.map_cons, hb', Bool.false_eq_true, if_false, List.find?]
            cases hb2 : (b1 == a) with
            | true => rfl
            | false => exact ih

/-- Writing a key at one address leaves every other address unchanged. -/
theorem heapGet_write_ne : ∀ (h : Heap) (r : Nat) (k : String) (v : HVal) (a : Nat),
    ¬ a = r → heapGet (heapWrite h r k v) a = heapGet h a := by
  intro h r k v a hne
  have hra : ((r : Nat) == a) = false :=
    Bool.eq_false_iff.mpr (fun hc => hne (beq_iff_eq.mp hc).symm)
  unfold heapWrite heapGet
  show Option.map (fun c => c.2)
      ((h.cells.map (fun c => if c.1 == r then (r, hdictSet c.2 k v) else c)).find?
        (fun c => c.1 == a))
    = Option.map (fun c => c.2) (h.cells.find? (fun c => c.1 == a))
  rw [find_map_write_ne h.cells r a k v hra]

/-- A concrete schema heap: the root dict at address 0 with `properties` at 1,
the definition of `p` at 2, and a nested dict at 3 shared by reference. -/
def exHeap : Heap :=
  { cells := [(0, [("properties", .href 1)]),
              (1, [("p", .href 2)]),
              (2, [("type", .hstr "string"), ("nested", .href 3)]),
              (3, [("x", .hstr "old")])],
    next := 4 }

/-- The heap after `find_parameter` copied the definition of `p` out of `exHeap`. -/
def exHeapAfter : Heap := (find_parameter_h exHeap 0 "$defs" "p").2

/-- C7, counterexample: `find_parameter` returns a shallow copy (fresh address
4 sharing the nested reference to address 3), so the caller mutation
`returned["nested"]["x"] = "new"` — performed entirely through the returned
mapping — changes the backing schema document: the schema-reachable object at
address 3 now reads `"new"` where it read `"old"`. -/
theorem find_parameter_copy_counterexample :
    (find_parameter_h exHeap 0 "$defs" "p").1 = some 4 ∧
    hdictGet ((heapGet exHeapAfter 4).getD []) "nested" = some (.href 3) ∧
    hdictGet ((heapGet exHeap 3).getD []) "x" = some (.hstr "old") ∧
    hdictGet ((heapGet (heapWrite exHeapAfter 3 "x" (.hstr "new")) 3).getD []) "x"
      = some (.hstr "new") ∧
    ¬ hdictGet ((heapGet (heapWrite exHeapAfter 3 "x" (.hstr "new")) 3).getD []) "x"
      = hdictGet ((heapGet exHeap 3).getD []) "x" := by
  refine ⟨rfl, rfl, rfl, rfl, ?_⟩
  intro h
  have h' : some (HVal.hstr "new") = some (HVal.hstr "old") := h
  have h2 : ("new" : String) = "old" := (HVal.hstr.injEq _ _).mp (Option.some.inj h')
  exact absurd h2 (by decide)

/-- C7 (amended): `find_parameter` itself leaves every existing schema object
unchanged, and — the copy being shallow — mutations of the returned mapping's
own keys do not change any pre-existing object either; only mutating a nested
mapping shared through a reference changes the document, as the
counterexample shows. -/
theorem find_parameter_shallow_copy :
  ∀ (h : Heap) (root : Nat) (dk n : String),
    heapWF h = true →
    (∀ a d, heapGet h a = some d → heapGet (find_parameter_h h root dk n).2 a = some d) ∧
    (∀ r h1, find_parameter_h h root dk n = (some r, h1) →
       ∀ k v a d, heapGet h a = some d →
         heapGet (heapWrite h1 r k v) a = some d) := by
  intro h root dk n hwf
  cases hl : locateParam h root dk n with
  | none =>
      constructor
      · intro a d hget
        simp only [find_parameter_h, hl]
        exact hget
      · intro r h1 heq
        simp only [find_parameter_h, hl] at heq
        have hcontra := congrArg Prod.fst heq
        simp at hcontra
  | some t =>
      constructor
      · intro a d hget
        simp only [find_parameter_h, hl]
        exact heapGet_alloc h _ a d hget
      · intro r h1 heq
        simp only [find_parameter_h, hl] at heq
        have hr : r = h.next := by
          have h2 := congrArg Prod.fst heq
          simp only [heapAlloc] at h2
          exact (Option.some.inj h2).symm
        have hh1 : h1 = (heapAlloc h ((heapGet h t).getD [])).1 :=
          (congrArg Prod.snd heq).symm
        intro k v a d hget
        have hlt : a < h.next := heapGet_lt_next h a d hwf hget
        have hne : ¬ a = r := by
          rw [hr]; exact Nat.ne_of_lt hlt
        rw [hh1, heapGet_write_ne _ r k v a hne]
        exact heapGet_alloc h _ a d hget

/-- C7 witness: on `exHeap`, `find_parameter` preserves the cell at address 1,
and writing a fresh key on the returned copy (address 4) leaves the original
definition object at address 2 unchanged. -/
theorem find_parameter_shallow_copy_witness :
    heapGet (find_parameter_h exHeap 0 "$defs" "p").2 1 = some [("p", .href 2)] ∧
    heapGet (heapWrite exHeapAfter 4 "fresh" (.hstr "v")) 2
      = some [("type", .hstr "string"), ("nested", .href 3)] :=
  ⟨(find_parameter_shallow_copy exHeap 0 "$defs" "p" (by decide)).1 1 [("p", .href 2)] rfl,
   (find_parameter_shallow_copy exHeap 0 "$defs" "p" (by decide)).2 4 exHeapAfter rfl
     "fresh" (.hstr "v") 2 [("type", .hstr "string"), ("nested", .href 3)] rfl⟩
